import Mathlib

/-!
# Commission Portal — verification of the reconciliation core

Shallow embedding of the commission-fact reconciliation engine of
`app.py` and `bullhorn_api.py`.  Monetary amounts and spreadsheet cell
numbers are modelled as exact rationals (`ℚ`); Python's `round(x, 2)`
and the `"{:.2f}"` format are modelled by exact half-even rounding of
the rational value, which agrees with CPython on all non-tie decimal
inputs appearing in the claims.
-/

namespace CommissionPortal

/-! ## Python integer rendering (`str(n)` for a nonnegative int) -/

/-- Decimal digit list of `n`, most significant first (fuel-based so the
kernel can evaluate it). -/
def natStrAux : Nat → Nat → List Char
  | 0, _ => []
  | fuel + 1, n =>
      if n < 10 then [Nat.digitChar n]
      else natStrAux fuel (n / 10) ++ [Nat.digitChar (n % 10)]

/-- Decimal rendering of a natural number, as Python's `str` produces it. -/
def natStr (n : Nat) : String := String.mk (natStrAux (n + 1) n)

/-- Read a digit string back as a number (left inverse of `natStr`,
used only to prove injectivity). -/
def parse_digits (l : List Char) : Nat := l.foldl (fun a c => a * 10 + (c.toNat - 48)) 0

/-- Python `str(i)` for an integer. -/
def intStr (i : Int) : String :=
  if i < 0 then "-" ++ natStr i.natAbs else natStr i.natAbs

/-! ## Half-even rounding — model of CPython `round(x, 2)` and `"{:.2f}"` -/

/-- Round a rational to the nearest integer, ties to even
(the rounding CPython applies both in `round` and in `format`). -/
def round_half_even (x : ℚ) : ℤ :=
  let n := ⌊x⌋
  if x - n < 1/2 then n
  else if (1:ℚ)/2 < x - n then n + 1
  else if n % 2 = 0 then n else n + 1

/-- Model of Python `round(q, 2)` on an exact rational. -/
def py_round2 (q : ℚ) : ℚ := (round_half_even (q * 100) : ℚ) / 100

/-- Render `c` hundredths as `"<int>.<2 digits>"` (for `c ≥ 0`). -/
def centsStr (c : Nat) : String :=
  natStr (c / 100) ++ "." ++ (if c % 100 < 10 then "0" ++ natStr (c % 100) else natStr (c % 100))

/-- Model of Python `f"{q:.2f}"`: sign, then the rounded magnitude with
two decimal places (CPython formats the magnitude and prepends the sign,
so negative values rounding to zero print as `-0.00`). -/
def fmt2 (q : ℚ) : String :=
  (if q < 0 then "-" else "") ++ centsStr (round_half_even (|q| * 100)).toNat

/-! ## Python `float(s)` — exact-rational model of the numeric literal forms
(sign, integer digits, optional decimal point and fraction digits; the
claims never exercise exponents, `inf`/`nan` words or underscores, which
this model rejects). `float` ignores surrounding whitespace. -/

def char_digit (c : Char) : Nat := c.toNat - 48

def int_val (ds : List Char) : ℚ := ds.foldl (fun a c => a * 10 + (char_digit c : ℚ)) 0

def frac_val (ds : List Char) : ℚ := int_val ds / (10 : ℚ) ^ ds.length

/-- Python `s.strip()` on whitespace (structural, so proofs can
evaluate it). -/
def py_strip (s : String) : String :=
  ⟨((s.data.dropWhile Char.isWhitespace).reverse.dropWhile Char.isWhitespace).reverse⟩

def py_float_core (s : List Char) : Option ℚ :=
  let ip := s.takeWhile (·.isDigit)
  let rest := s.drop ip.length
  match rest with
  | [] => if ip.isEmpty then none else some (int_val ip)
  | '.' :: fp =>
      if fp.all (·.isDigit) && !(ip.isEmpty && fp.isEmpty) then
        some (int_val ip + frac_val fp)
      else none
  | _ => none

def py_float (s0 : String) : Option ℚ :=
  match (py_strip s0).data with
  | '-' :: rest => (py_float_core rest).map (fun q => -q)
  | '+' :: rest => py_float_core rest
  | l => py_float_core l

/-! ## Spreadsheet cell values

A dataframe cell, after `pandas` has read the file.  `nan` covers real
NaN cells: with the default reader settings, blank cells and the
"not-available" sentinel strings (`"N/A"`, `"NA"`, `"n/a"`, `"null"`,
`"NULL"`, `"NaN"`, `"nan"`, …) arrive as NaN, which is what the
`pd.notna` test in `_first_match` excludes. `date` covers
`pd.Timestamp` cells from parsed date columns. -/

inductive PyVal where
  | none
  | nan
  | str (s : String)
  | num (q : ℚ)
  | date (days : ℚ)   -- pd.Timestamp, as fractional days since 1970-01-01
deriving Repr, DecidableEq

/-- Sentinel strings pandas converts to NaN when reading a file (default
`na_values`, representative subset). -/
def NA_SENTINELS : List String :=
  ["", "N/A", "NA", "n/a", "NaN", "nan", "NULL", "null", "#N/A"]

/-- Model of how the reader turns a raw text cell into a dataframe value:
NA sentinels become NaN, numeric literals become numbers, the rest stay
strings. -/
def read_cell (s : String) : PyVal :=
  if NA_SENTINELS.contains (py_strip s) then PyVal.nan
  else match py_float s with
       | some q => PyVal.num q
       | Option.none => PyVal.str s

/-- `pd.notna` on a cell value. -/
def pd_notna : PyVal → Bool
  | PyVal.none => false
  | PyVal.nan => false
  | _ => true

/-- Python truthiness of a cell value (`if val:`). NaN is truthy. -/
def py_truthy : PyVal → Bool
  | PyVal.none => false
  | PyVal.nan => true
  | PyVal.str s => s ≠ ""
  | PyVal.num q => q ≠ 0
  | PyVal.date _ => true

/-- Fractional decimal digits of `0 ≤ q < 1`, with fuel (used only for
rendering; Python float repr prints the shortest round-tripping decimal,
which for the short decimal fractions of this model is the decimal
expansion itself). -/
def frac_digits : Nat → ℚ → List Char
  | 0, _ => []
  | fuel + 1, q =>
      if q = 0 then []
      else
        let d := (⌊q * 10⌋).toNat
        Nat.digitChar d :: frac_digits fuel (q * 10 - (d : ℚ))

/-- Python `str(x)` for a float modelled as an exact decimal rational. -/
def rat_str (q : ℚ) : String :=
  (if q < 0 then "-" else "") ++ natStr (⌊|q|⌋).toNat ++ "." ++
    (let ds := frac_digits 20 (|q| - (⌊|q|⌋ : ℚ))
     if ds.isEmpty then "0" else String.mk ds)

/-- Python `str(val)` on a cell value. -/
def py_str : PyVal → String
  | PyVal.none => "None"
  | PyVal.nan => "nan"
  | PyVal.str s => s
  | PyVal.num q => rat_str q
  | PyVal.date d => "Timestamp(" ++ rat_str d ++ ")"

/-- `pd.to_numeric(val, errors="coerce")`: numbers pass through, numeric
strings are parsed, everything else coerces to NaN (modelled `none`). -/
def py_to_numeric : PyVal → Option ℚ
  | PyVal.num q => some q
  | PyVal.str s => py_float s
  | _ => none

/-! ## `_first_match` (app.py) — the column matcher -/

/-- The guard `pd.notna(val) and str(val).strip() != ""` from
`_first_match`. -/
def good_val (v : PyVal) : Bool := pd_notna v && py_strip (py_str v) ≠ ""

/-- Shallow embedding of `_first_match(row_map, candidates)`: scan the
candidate aliases in order; the first one present in the row with a
non-NA, non-blank value wins; otherwise `none`. -/
def first_match (row : List (String × PyVal)) : List String → Option PyVal
  | [] => Option.none
  | k :: rest =>
      match row.lookup k with
      | some v => if good_val v then some v else first_match row rest
      | Option.none => first_match row rest

/-! ## Calendar arithmetic (proleptic Gregorian, Unix day numbers)

Standard civil-from-days / days-from-civil algorithms; day 0 is
1970-01-01.  These model the calendar conversions done by
`pd.Timestamp` / `datetime`. -/

def days_from_civil (y : Int) (m d : Nat) : Int :=
  let y' : Int := if m ≤ 2 then y - 1 else y
  let era : Int := (if 0 ≤ y' then y' else y' - 399) / 400
  let yoe : Nat := (y' - era * 400).toNat
  let mp : Nat := (m + 9) % 12
  let doy : Nat := (153 * mp + 2) / 5 + d - 1
  let doe : Nat := yoe * 365 + yoe / 4 - yoe / 100 + doy
  era * 146097 + (doe : Int) - 719468

def civil_from_days (z0 : Int) : Int × Nat × Nat :=
  let z : Int := z0 + 719468
  let era : Int := (if 0 ≤ z then z else z - 146096) / 146097
  let doe : Nat := (z - era * 146097).toNat
  let yoe : Nat := (doe - doe / 1460 + doe / 36524 - doe / 146096) / 365
  let y : Int := (yoe : Int) + era * 400
  let doy : Nat := doe - (365 * yoe + yoe / 4 - yoe / 100)
  let mp : Nat := (5 * doy + 2) / 153
  let d : Nat := doy - (153 * mp + 2) / 5 + 1
  let m : Nat := if mp < 10 then mp + 3 else mp - 9
  (if m ≤ 2 then y + 1 else y, m, d)

/-- A parsed date/time: fractional days since 1970-01-01 (the model of a
`pd.Timestamp` / `datetime` value). -/
structure PDate where
  days : ℚ
deriving Repr, DecidableEq

def pdate_year (p : PDate) : Int := (civil_from_days ⌊p.days⌋).1

def pdate_month (p : PDate) : Nat := (civil_from_days ⌊p.days⌋).2.1

def pdate_day (p : PDate) : Nat := (civil_from_days ⌊p.days⌋).2.2

/-- `dt.strftime("%B")`. -/
def month_name : Nat → String
  | 1 => "January" | 2 => "February" | 3 => "March" | 4 => "April"
  | 5 => "May" | 6 => "June" | 7 => "July" | 8 => "August"
  | 9 => "September" | 10 => "October" | 11 => "November" | 12 => "December"
  | _ => "Unknown"

def month_label (p : PDate) : String := month_name (pdate_month p)

/-- Parse an ISO `YYYY-MM-DD` date string (model of
`datetime.fromisoformat` on a 10-character slice, and of the
date-string cases of `pd.to_datetime` that the claims can reach; other
string layouts parse to absent in this model). -/
def iso_parse (s : String) : Option PDate :=
  match s.data.splitOn '-' with
  | [ys, ms, ds] =>
      if ys.length = 4 && ys.all (·.isDigit) && ms.length = 2 && ms.all (·.isDigit)
          && ds.length = 2 && ds.all (·.isDigit) then
        let y : Nat := ys.foldl (fun a c => a * 10 + char_digit c) 0
        let m : Nat := ms.foldl (fun a c => a * 10 + char_digit c) 0
        let d : Nat := ds.foldl (fun a c => a * 10 + char_digit c) 0
        if 1 ≤ m && m ≤ 12 && 1 ≤ d && d ≤ 31 then
          some ⟨(days_from_civil y m d : ℚ)⟩
        else none
      else none
  | _ => none

/-- Nanoseconds per day. -/
def NS_PER_DAY : ℚ := 86400 * 1000000000

/-- `pd.Timestamp` representable range in nanoseconds (±2^63). -/
def TS_BOUND : ℚ := 9223372036854775808

/-- The Unix day number of the spreadsheet serial epoch 1899-12-30 is
-25569; serial `v` denotes `1899-12-30 + v days`. -/
def SERIAL_EPOCH_DAYS : Int := -25569

/-- `pd.to_datetime(value, errors="coerce")` for a scalar: numbers are
nanoseconds since the Unix epoch (NaT — absent — outside the Timestamp
range), strings are parsed as dates, NaN coerces to NaT. -/
def pd_to_datetime (v : PyVal) : Option PDate :=
  match v with
  | PyVal.num q => if -TS_BOUND < q ∧ q < TS_BOUND then some ⟨q / NS_PER_DAY⟩ else Option.none
  | PyVal.str s => iso_parse s
  | PyVal.date d => some ⟨d⟩
  | _ => Option.none

/-- Shallow embedding of `_parse_date(value)` (app.py):
`None`/blank-string → absent; a `Timestamp` passes through; a number
strictly between 20000 and 60000 is a spreadsheet serial with epoch
1899-12-30; anything else goes to the generic coercing parse.  The
Lean function is total, modelling that `_parse_date` never raises. -/
def parse_date (v : PyVal) : Option PDate :=
  match v with
  | PyVal.none => Option.none
  | PyVal.str s => if py_strip s = "" then Option.none else pd_to_datetime (PyVal.str s)
  | PyVal.date d => some ⟨d⟩
  | PyVal.num q =>
      if 20000 < q ∧ q < 60000 then some ⟨(SERIAL_EPOCH_DAYS : ℚ) + q⟩
      else pd_to_datetime (PyVal.num q)
  | PyVal.nan => pd_to_datetime PyVal.nan

/-! ## `_infer_commission_rate` (app.py) — the rate resolver -/

/-- Boolean contiguous-substring test on character lists. -/
def list_infix_of (p l : List Char) : Bool := l.tails.any (fun t => p.isPrefixOf t)

/-- Python `s.lower()` (character-wise, structural so proofs can
evaluate it). -/
def py_lower (s : String) : String := ⟨s.data.map Char.toLower⟩

/-- `"enterprise" in status.lower()`. -/
def has_enterprise (st : String) : Bool := list_infix_of "enterprise".data (py_lower st).data

/-- Python `s.rstrip("%")`. -/
def rstrip_pct (s : String) : String := ⟨(s.data.reverse.dropWhile (· = '%')).reverse⟩

/-- Python `s.endswith("%")`. -/
def ends_pct (s : String) : Bool := s.data.getLast? = some '%'

/-- Shallow embedding of `_infer_commission_rate(status, gp, provided_rate)`.
`provided_rate = none` models an absent or falsy provided value; a
present value is the Python string `str(provided_rate)`.  `status` is
the string the code lower-cases (`""` for a falsy status).  The unused
`gp` parameter is kept for signature fidelity. -/
def infer_commission_rate (status : String) (gp : ℚ) (provided_rate : Option String) :
    String × ℚ :=
  let fallback : String × ℚ :=
    if has_enterprise status then ("9.75%", (0.0975 : ℚ)) else ("10.00%", (0.10 : ℚ))
  match provided_rate with
  | some pr =>
      let s := py_strip pr
      if ends_pct s then
        match py_float (rstrip_pct s) with
        | some v =>
            let rf := v / 100
            (fmt2 (rf * 100) ++ "%", rf)
        | Option.none => fallback
      else
        match py_float s with
        | some v =>
            let rf := if 1 < v then v / 100 else v
            (fmt2 (rf * 100) ++ "%", rf)
        | Option.none => fallback
  | Option.none => fallback

/-! ## `_dedupe_key` (app.py) — the identity/dedup key builder -/

/-- The fields `_dedupe_key` reads from its record argument.
`placement_id = none` models an absent or falsy placement id. -/
structure KeyRec where
  placement_id : Option String
  employee_name : String
  client : String
  status : String
  gp : ℚ
  month : String
  day : Nat
  year : Nat
deriving Repr, DecidableEq

/-- Shallow embedding of `_dedupe_key(rec)`.  `nowYear` models
`datetime.now().year` (only consulted when the record's year is falsy).
Falsy year/month/day fall back to current-year/"Unknown"/1; the string
fields and `gp` use `or` defaults that are the identity on the modelled
values. -/
def dedupe_key (nowYear : Nat) (rec : KeyRec) : String :=
  match rec.placement_id with
  | some pid =>
      let pfx := if "perm".data.isPrefixOf (py_lower rec.status).data then "perm" else "contract"
      pfx ++ ":" ++ pid
  | Option.none =>
      let year := if rec.year = 0 then nowYear else rec.year
      let month := if rec.month = "" then "Unknown" else rec.month
      let day := if rec.day = 0 then 1 else rec.day
      natStr year ++ "|" ++ month ++ "|" ++ natStr day ++ "|" ++ rec.employee_name
        ++ "|" ++ rec.client ++ "|" ++ rec.status ++ "|" ++ fmt2 rec.gp

/-! ## Commission Facts and the spreadsheet normalizer (`upload_file`, app.py) -/

/-- A ledger row / canonical Commission Fact (the `CommissionData`
columns written by the import paths). -/
structure Fact where
  employee_name : String
  client : String
  status : String
  gp : ℚ
  hourly_gp : ℚ
  commission_rate : String
  commission : ℚ
  month : String
  day : Nat
  year : Nat
  placement_id : Option String
  unique_key : String
  employee_id : Option Nat
deriving Repr, DecidableEq

def CLIENT_COLS : List String := ["client", "client name", "customer", "company", "account"]

def GP_COLS : List String := ["gp", "gross profit", "profit", "gp amount"]

def EMP_COLS : List String :=
  ["employee", "employee name", "recruiter", "sales", "sales rep", "owner", "consultant"]

def HOURS_COLS : List String := ["hours", "total hours", "hours worked"]

def STATUS_COLS : List String := ["status", "sales status", "placement status"]

def RATE_COLS : List String := ["commission rate", "rate", "comm rate"]

def DATE_COLS : List String :=
  ["date", "placement date", "start date", "we date", "week ending", "invoice date", "bill date"]

/-- `str(val)` applied to an optional truthy value: models the pattern
`str(x) if x else default` and the raw arguments handed to
`_infer_commission_rate` (a falsy value becomes absent). -/
def opt_str_of (v : Option PyVal) : Option String :=
  match v with
  | some x => if py_truthy x then some (py_str x) else Option.none
  | Option.none => Option.none

/-- Shallow embedding of the per-row body of `upload_file` (app.py
lines 484-536): resolve columns via `_first_match`, parse the date,
coerce gp and hours, infer the rate, build the `CommissionData` record
and its dedup key.  Returns `none` when the row is skipped (missing
client/employee or non-numeric gp).  `nowYear` models
`datetime.now().year`; `emp_id` models `_employee_id_by_name`. -/
def normalize_row (nowYear : Nat) (emp_id : String → Option Nat)
    (row : List (String × PyVal)) : Option Fact :=
  let client := first_match row CLIENT_COLS
  let gp_val := first_match row GP_COLS
  let employee_name := first_match row EMP_COLS
  let hours_val := first_match row HOURS_COLS
  let status_val := first_match row STATUS_COLS
  let provided_rate := first_match row RATE_COLS
  let date_val := first_match row DATE_COLS
  let dt := parse_date (date_val.getD PyVal.none)
  let month_n : String := match dt with | some d => month_label d | Option.none => "Current"
  let day_num : Nat := match dt with | some d => pdate_day d | Option.none => 1
  let year_num : Nat := match dt with | some d => (pdate_year d).toNat | Option.none => nowYear
  let gp : Option ℚ := match gp_val with | some v => py_to_numeric v | Option.none => Option.none
  match gp with
  | Option.none => Option.none
  | some g =>
      let clientT := match client with | some c => py_truthy c | Option.none => false
      let empT := match employee_name with | some e => py_truthy e | Option.none => false
      if clientT && empT then
        let hours : ℚ :=
          match (match hours_val with
                 | some v => py_to_numeric v
                 | Option.none => Option.none) with
          | some h => if h ≤ 0 then 40 else h
          | Option.none => 40
        let hourly_gp := g / hours
        let rate := infer_commission_rate ((opt_str_of status_val).getD "") g
          (opt_str_of provided_rate)
        let commission_amt := py_round2 (g * rate.2)
        let emp_s := py_str (employee_name.getD PyVal.none)
        let client_s := py_str (client.getD PyVal.none)
        let status_s := (opt_str_of status_val).getD "New"
        let key := dedupe_key nowYear
          { placement_id := Option.none, employee_name := emp_s, client := client_s,
            status := status_s, gp := g, month := month_n, day := day_num, year := year_num }
        some
          { employee_name := emp_s, client := client_s, status := status_s, gp := g,
            hourly_gp := py_round2 hourly_gp, commission_rate := rate.1,
            commission := commission_amt, month := month_n, day := day_num,
            year := year_num, placement_id := Option.none, unique_key := key,
            employee_id := emp_id emp_s }
      else Option.none

/-! ## The upsert step and a whole upload run -/

/-- `CommissionData.query.filter_by(unique_key=k).first() is not None`. -/
def ledger_has_key (L : List Fact) (k : String) : Bool :=
  L.any (fun r => r.unique_key = k)

/-- Shallow embedding of app.py lines 538-541: look up the dedup key;
if present the fact is dropped, otherwise it is inserted and the
processed counter incremented.  (SQLAlchemy autoflush makes rows added
earlier in the same run visible to the lookup.) -/
def upload_step (L : List Fact) (pc : Nat) (f : Fact) : List Fact × Nat :=
  if ledger_has_key L f.unique_key then (L, pc) else (L ++ [f], pc + 1)

/-- The whole row loop of `upload_file`: ledger and processed count
after consuming the given dataframe rows. -/
def upload_fold (nowYear : Nat) (emp_id : String → Option Nat)
    (st : List Fact × Nat) : List (List (String × PyVal)) → List Fact × Nat
  | [] => st
  | row :: rest =>
      let st' :=
        match normalize_row nowYear emp_id row with
        | some f => upload_step st.1 st.2 f
        | Option.none => st
      upload_fold nowYear emp_id st' rest

/-- One `POST /api/upload` call on ledger `L`: the new ledger and the
reported `processed` count. -/
def upload_run (nowYear : Nat) (emp_id : String → Option Nat)
    (L : List Fact) (rows : List (List (String × PyVal))) : List Fact × Nat :=
  upload_fold nowYear emp_id (L, 0) rows

/-! ## The sync ingestion step (`sync_bullhorn_data`, app.py) -/

/-- A producer record as handed to the sync loop (the dict fields read
by app.py lines 746-756; `none` models an absent or falsy value). -/
structure SRec where
  employee_name : Option String
  employee : Option String
  client : Option String
  status : Option String
  gp : Option ℚ
  hourly_gp : Option ℚ
  commission_rate : Option String
  commission : Option ℚ
  month : Option String
  day : Option Nat
  year : Option Nat
  placement_id : Option String
deriving Repr, DecidableEq

/-- `a or b` for optional strings (empty string is falsy). -/
def or_str (v : Option String) (d : String) : String :=
  match v with
  | some s => if s = "" then d else s
  | Option.none => d

/-- `a or b` for optional rationals (0 is falsy). -/
def or_num (v : Option ℚ) (d : ℚ) : ℚ :=
  match v with
  | some q => if q = 0 then d else q
  | Option.none => d

/-- `a or b` for optional naturals (0 is falsy). -/
def or_nat (v : Option Nat) (d : Nat) : Nat :=
  match v with
  | some n => if n = 0 then d else n
  | Option.none => d

/-- Shallow embedding of the per-record body of `sync_bullhorn_data`
(app.py lines 744-788): coerce the dict fields with their `or`
defaults, compute the dedup key, and build the row that would be
inserted.  `startMonth`/`startYear` model `start_date`. -/
def sync_build (nowYear : Nat) (emp_id : String → Option Nat)
    (startMonth : String) (startYear : Nat) (rec : SRec) : Fact :=
  let employee_name := or_str rec.employee_name (or_str rec.employee "")
  let client := or_str rec.client ""
  let status := or_str rec.status "New"
  let gp := or_num rec.gp 0
  let hourly_gp := or_num rec.hourly_gp 0
  let commission_rate := or_str rec.commission_rate "10.00%"
  let commission := or_num rec.commission (py_round2 (gp * 0.10))
  let month := or_str rec.month startMonth
  let day := or_nat rec.day 1
  let year := or_nat rec.year startYear
  let unique_key := dedupe_key nowYear
    { placement_id := rec.placement_id, employee_name := employee_name, client := client,
      status := status, gp := gp, month := month, day := day, year := year }
  { employee_name := employee_name, client := client, status := status, gp := gp,
    hourly_gp := py_round2 hourly_gp, commission_rate := commission_rate,
    commission := py_round2 commission, month := month, day := day, year := year,
    placement_id := rec.placement_id, unique_key := unique_key,
    employee_id := emp_id employee_name }

/-- Shallow embedding of app.py lines 769-788: if a row with the same
dedup key exists the record is skipped (`continue`), otherwise the
built row is added and the processed counter incremented. -/
def sync_step (nowYear : Nat) (emp_id : String → Option Nat)
    (startMonth : String) (startYear : Nat)
    (L : List Fact) (pc : Nat) (rec : SRec) : List Fact × Nat :=
  let f := sync_build nowYear emp_id startMonth startYear rec
  if ledger_has_key L f.unique_key then (L, pc) else (L ++ [f], pc + 1)

/-! ## Back Office client (`bullhorn_api.py`): endpoint fallback and
error classification -/

/-- A timesheet entry as consumed by
`get_commission_rows_from_timesheets` (the dict fields it reads;
`none` models absent or falsy values). -/
structure TPlacement where
  employmentType : Option String
  clientName : Option String        -- placement.clientCorporation.name
  cct38 : Option String             -- correlatedCustomText38 (sales)
  cct34 : Option String             -- correlatedCustomText34 (recruiter)
deriving Repr, DecidableEq

/-- The `dateWorked`/`workDate` value: an ISO-ish string, a datetime
object, or something else (which leaves `dt = None`). -/
inductive DateVal where
  | s (v : String)
  | d (v : PDate)
  | other
deriving Repr, DecidableEq

structure TEntry where
  dateWorked : Option DateVal
  workDate : Option DateVal
  hours : Option ℚ                  -- hours / quantity, `or 0.0` chain
  quantity : Option ℚ
  billAmount : Option ℚ             -- billAmount / bill
  bill : Option ℚ
  payAmount : Option ℚ              -- payAmount / pay
  pay : Option ℚ
  placement : Option TPlacement
  clientName : Option String        -- top-level clientName fallback
  ownerName : Option String
deriving Repr, DecidableEq

/-- An aggregation bucket (the `aggregate[key]` dict). -/
structure TGroup where
  employee_name : String
  client : String
  employment_type : String
  month : String
  year : Int
  total_hours : ℚ
  bill_sum : ℚ
  pay_sum : ℚ
deriving Repr, DecidableEq

/-- A commission row dict emitted by the Back Office / ATS producers
(year is an `Int` as it comes straight from the calendar). -/
structure BRow where
  employee_name : String
  client : String
  status : String
  gp : ℚ
  hourly_gp : ℚ
  commission_rate : String
  commission : ℚ
  month : String
  day : Nat
  year : Int
  placement_id : Option String
deriving Repr, DecidableEq

/-- One HTTP attempt against one endpoint variant. -/
inductive Attempt where
  | ok (entries : List TEntry) (nextPage : Option Nat)
  | http (code : Nat)
  | timeout
  | connError
deriving Repr, DecidableEq

/-- The error kinds `_get_with_fallback` distinguishes when all endpoint
variants are exhausted (classified from the last error message:
`"503"` → service unavailable, `"404"` → not found, `"401"`/`"403"` →
authentication failed, anything else — including timeouts and
connection errors — general). -/
inductive ErrKind where
  | unavailable
  | notFound
  | authFailed
  | general
deriving Repr, DecidableEq

/-- A successful page payload: the entry list and the pagination hint
(`nextPage`/`hasMore`, reduced to the next page number when the code
would continue). -/
structure Payload where
  entries : List TEntry
  nextPage : Option Nat
deriving Repr, DecidableEq

/-- Error kind recorded by the failure branch of one attempt (the
category of the `last_error` message it formats). -/
def attempt_err_kind : Attempt → ErrKind
  | Attempt.http 503 => ErrKind.unavailable
  | Attempt.http 404 => ErrKind.notFound
  | Attempt.http c => if c = 401 ∨ c = 403 then ErrKind.authFailed else ErrKind.general
  | Attempt.timeout => ErrKind.general
  | Attempt.connError => ErrKind.general
  | Attempt.ok _ _ => ErrKind.general

/-- Shallow embedding of `BackOfficeAPI._get_with_fallback`: try the
endpoint variants in order, return the first 200 payload; if every
variant fails, raise an error whose kind is classified from the last
failure. -/
def get_with_fallback : List Attempt → Except ErrKind Payload
  | [] => Except.error ErrKind.general
  | [a] =>
      match a with
      | Attempt.ok es np => Except.ok ⟨es, np⟩
      | e => Except.error (attempt_err_kind e)
  | a :: rest =>
      match a with
      | Attempt.ok es np => Except.ok ⟨es, np⟩
      | _ => get_with_fallback rest

/-! ## Timesheet aggregation (`get_commission_rows_from_timesheets`) -/

/-- `a or b` for optional date values. -/
def or_date (v : Option DateVal) (w : Option DateVal) : Option DateVal :=
  match v with
  | some x => some x
  | Option.none => w

/-- The date normalization of one entry (bullhorn_api.py lines
412-426): strings go through `fromisoformat` on the first 10
characters, datetimes pass through, anything else (or a parse failure)
makes the entry skipped. -/
def entry_date (e : TEntry) : Option PDate :=
  match or_date e.dateWorked e.workDate with
  | some (DateVal.s v) => iso_parse ⟨v.data.take 10⟩
  | some (DateVal.d v) => some v
  | some DateVal.other => Option.none
  | Option.none => Option.none

/-- Process one timesheet entry into the aggregate (bullhorn_api.py
lines 410-462); entries with no usable date or no resolvable employee
are skipped. The aggregate is an insertion-ordered association list,
like a Python dict. -/
def process_entry (agg : List (String × TGroup)) (e : TEntry) : List (String × TGroup) :=
  match entry_date e with
  | Option.none => agg
  | some dt =>
      let hours := or_num e.hours (or_num e.quantity 0)
      let bill_amt := or_num e.billAmount (or_num e.bill 0)
      let pay_amt := or_num e.payAmount (or_num e.pay 0)
      let pl := e.placement
      let employment_type := or_str (pl.bind (·.employmentType)) "Contract"
      let client_name := or_str (pl.bind (·.clientName)) (or_str e.clientName "")
      let primary := or_str (pl.bind (·.cct38))
        (or_str (pl.bind (·.cct34)) (or_str e.ownerName ""))
      if primary = "" then agg
      else
        let ml := month_label dt
        let yv := pdate_year dt
        let key := primary ++ "|" ++ client_name ++ "|" ++ ml ++ "|" ++ intStr yv
          ++ "|" ++ employment_type
        match agg.lookup key with
        | some g =>
            agg.map (fun p =>
              if p.1 = key then
                (p.1, { g with total_hours := g.total_hours + hours,
                               bill_sum := g.bill_sum + bill_amt,
                               pay_sum := g.pay_sum + pay_amt })
              else p)
        | Option.none =>
            agg ++ [(key, { employee_name := primary, client := client_name,
                            employment_type := employment_type, month := ml, year := yv,
                            total_hours := hours, bill_sum := bill_amt,
                            pay_sum := pay_amt })]

/-- Finalization of one aggregation group (bullhorn_api.py lines
484-501): gross profit is bill minus pay (not clamped), hourly gp
divides by positive total hours, the rate is fixed at 10%, the status
labels the employment type, and the day is fixed at 1. -/
def finalize_group (g : TGroup) : BRow :=
  let gp := g.bill_sum - g.pay_sum
  let hourly_gp := if 0 < g.total_hours then gp / g.total_hours else 0
  let commission := py_round2 (gp * 0.10)
  { employee_name := g.employee_name, client := g.client,
    status := "Contract (" ++ g.employment_type ++ ")",
    gp := py_round2 gp, hourly_gp := py_round2 hourly_gp,
    commission_rate := "10.00%", commission := commission,
    month := g.month, day := 1, year := g.year, placement_id := Option.none }

def finalize_agg (agg : List (String × TGroup)) : List BRow :=
  (agg.map (·.2)).map finalize_group

/-- The page loop of `get_commission_rows_from_timesheets` over a
finite trace of per-page endpoint-attempt lists.  A 503 from the
fallback layer returns an empty list at once (the inner handler); any
other fetch error reaches the outer catch-all, which finalizes the
partial aggregate when one exists and otherwise returns the empty
list; an empty entry list, a missing pagination hint, or the end of
the trace ends the loop normally. -/
def rows_loop (agg : List (String × TGroup)) : List (List Attempt) → List BRow
  | [] => finalize_agg agg
  | pf :: rest =>
      match get_with_fallback pf with
      | Except.error ErrKind.unavailable => []
      | Except.error _ => if agg.isEmpty then [] else finalize_agg agg
      | Except.ok payload =>
          if payload.entries.isEmpty then finalize_agg agg
          else
            let agg' := payload.entries.foldl process_entry agg
            match payload.nextPage with
            | some _ => rows_loop agg' rest
            | Option.none => finalize_agg agg'

/-- Shallow embedding of
`BackOfficeAPI.get_commission_rows_from_timesheets` on a fetch trace
(one attempt list per requested page). -/
def get_commission_rows_from_timesheets (trace : List (List Attempt)) : List BRow :=
  rows_loop [] trace

/-- Shallow embedding of `get_bbo_commission_data`: the ping result is
ignored, and the surrounding `try/except` returns an empty list on any
escaping exception — the aggregation itself never lets one escape, so
this is the aggregation result. -/
def get_bbo_commission_data (trace : List (List Attempt)) : List BRow :=
  get_commission_rows_from_timesheets trace

/-! ## ATS placement formatter (`format_placement_data`, bullhorn_api.py) -/

/-- A `Placement` record as read by `format_placement_data` (the dict
fields it touches; `none` models absent/falsy). -/
structure Placement where
  id : Nat
  cct2 : Option String              -- correlatedCustomText2 ("internal" marker)
  dateBegin : Option PDate          -- dateBegin, already converted from epoch ms
  invoiceDate : Option PDate        -- customDate1
  ct34 : Option String              -- customText34 (recruiter)
  ct38 : Option String              -- customText38 (sales)
  clientName : Option String        -- clientCorporation.name
  flatFee : Option ℚ
deriving Repr, DecidableEq

/-- Shallow embedding of the per-placement body of
`format_placement_data` (bullhorn_api.py lines 190-216): skip
"internal" placements and placements with no sales/recruiter name;
gross profit is the flat fee; 10% rate; zero hourly gp. -/
def format_placement (nowYear : Nat) (p : Placement) : Option BRow :=
  if (py_lower (or_str p.cct2 "") = "internal") then Option.none
  else
    let recruiter := or_str p.ct34 ""
    let sales := or_str p.ct38 ""
    let primary := if sales ≠ "" then sales else recruiter
    if primary = "" then Option.none
    else
      let client_name := or_str p.clientName ""
      let flat_fee := or_num p.flatFee 0
      let commission := py_round2 (flat_fee * 0.10)
      some
        { employee_name := primary, client := client_name, status := "Permanent",
          gp := flat_fee, hourly_gp := 0, commission_rate := "10.00%",
          commission := commission,
          month := match p.dateBegin with
                   | some d => month_label d
                   | Option.none => "Unknown",
          day := match p.dateBegin with
                 | some d => pdate_day d
                 | Option.none => 1,
          year := match p.dateBegin with
                  | some d => pdate_year d
                  | Option.none => (nowYear : Int),
          placement_id := some (natStr p.id) }

def c1_existing : Fact :=
  { employee_name := "Alice", client := "Acme", status := "New", gp := 1, hourly_gp := 0.03,
    commission_rate := "10.00%", commission := 0.1, month := "May", day := 2, year := 2025,
    placement_id := Option.none, unique_key := "2025|May|2|Alice|Acme|New|1.00",
    employee_id := Option.none }

def c1_incoming : Fact :=
  { c1_existing with gp := 2, commission := 0.2 }

def c3_rows : List (List (String × PyVal)) :=
  [[("client", PyVal.str "A"), ("gp", PyVal.str "2"), ("employee", PyVal.str "B")]]

def ajax_row : List (String × PyVal) :=
  [("client", PyVal.str "Ajax"), ("gp", PyVal.str "336.96"),
   ("employee", PyVal.str "Pam Henard"), ("status", PyVal.str "New")]

def c7_hours_row : List (String × PyVal) :=
  [("client", PyVal.str "A"), ("gp", PyVal.str "2"), ("employee", PyVal.str "B")]

def c9_neg_rate_row : List (String × PyVal) :=
  [("client", PyVal.str "A"), ("employee", PyVal.str "B"),
   ("gp", PyVal.str "100"), ("commission rate", PyVal.str "-5%")]

def c9_pos_row : List (String × PyVal) :=
  [("client", PyVal.str "C"), ("gp", PyVal.str "3"), ("employee", PyVal.str "D")]

/-! ## Theorems -/

theorem parse_digits_append (xs : List Char) (c : Char) :
    parse_digits (xs ++ [c]) = parse_digits xs * 10 + (c.toNat - 48) := by
  simp [parse_digits, List.foldl_append]

theorem digitChar_toNat : ∀ d < 10, (Nat.digitChar d).toNat - 48 = d := by decide

theorem parse_natStrAux : ∀ (fuel n : Nat), n < 10 ^ fuel →
    parse_digits (natStrAux fuel n) = n := by
  intro fuel
  induction fuel with
  | zero => intro n h; simp at h; simp [h, natStrAux, parse_digits]
  | succ f ih =>
    intro n h
    unfold natStrAux
    split
    · rename_i h10
      simp [parse_digits, digitChar_toNat n h10]
    · rename_i h10
      rw [parse_digits_append, digitChar_toNat _ (Nat.mod_lt _ (by norm_num)), ih]
      · omega
      · calc n / 10 < 10 ^ f := by
              rw [Nat.div_lt_iff_lt_mul (by norm_num)]
              calc n < 10 ^ (f + 1) := h
                _ = 10 ^ f * 10 := by ring

theorem natStr_inj {m n : Nat} (h : natStr m = natStr n) : m = n := by
  have hd : natStrAux (m + 1) m = natStrAux (n + 1) n := by
    have := congrArg String.data h
    simpa [natStr] using this
  have hb : ∀ k : Nat, k < 10 ^ (k + 1) := fun k =>
    lt_of_lt_of_le (Nat.lt_pow_self (by norm_num : (1:Nat) < 10) _)
      (Nat.pow_le_pow_right (by norm_num) (Nat.le_succ _))
  have hm : parse_digits (natStrAux (m + 1) m) = m := parse_natStrAux _ _ (hb m)
  have hn : parse_digits (natStrAux (n + 1) n) = n := parse_natStrAux _ _ (hb n)
  rw [← hm, ← hn, hd]

theorem round_half_even_intCast (n : ℤ) : round_half_even ((n:ℚ)) = n := by
  unfold round_half_even
  norm_num

theorem round_half_even_low {x : ℚ} {n : ℤ} (h1 : (n:ℚ) ≤ x) (h2 : x - n < 1/2) :
    round_half_even x = n := by
  have hf : ⌊x⌋ = n := Int.floor_eq_iff.mpr ⟨h1, by linarith⟩
  unfold round_half_even
  simp only [hf]
  rw [if_pos h2]

theorem round_half_even_high {x : ℚ} {n : ℤ} (h1 : (n:ℚ) + 1/2 < x) (h2 : x < n + 1) :
    round_half_even x = n + 1 := by
  have hf : ⌊x⌋ = n := Int.floor_eq_iff.mpr ⟨by linarith, by linarith⟩
  unfold round_half_even
  simp only [hf]
  rw [if_neg (by linarith), if_pos (by linarith)]

theorem round_half_even_tie_even {x : ℚ} {n : ℤ} (h : x = (n:ℚ) + 1/2) (he : n % 2 = 0) :
    round_half_even x = n := by
  have hf : ⌊x⌋ = n := Int.floor_eq_iff.mpr ⟨by rw [h]; linarith, by rw [h]; linarith⟩
  unfold round_half_even
  simp only [hf]
  rw [if_neg (by rw [h]; linarith), if_neg (by rw [h]; linarith), if_pos he]

theorem py_round2_eval {q : ℚ} {n : ℤ} (h : round_half_even (q * 100) = n) :
    py_round2 q = (n:ℚ)/100 := by
  unfold py_round2
  rw [h]

theorem fmt2_of_nonneg {q : ℚ} (c : ℕ) (h0 : 0 ≤ q) (h : q * 100 = (c:ℚ)) :
    fmt2 q = centsStr c := by
  unfold fmt2
  rw [if_neg (not_lt.mpr h0), abs_of_nonneg h0, h]
  rw [show ((c:ℚ)) = (((c:ℤ)):ℚ) by push_cast; ring, round_half_even_intCast]
  simp

theorem round_half_even_nonneg {x : ℚ} (hx : 0 ≤ x) : 0 ≤ round_half_even x := by
  unfold round_half_even
  have h0 : (0:ℤ) ≤ ⌊x⌋ := Int.le_floor.mpr (by exact_mod_cast hx)
  dsimp only
  split
  · exact h0
  · split
    · omega
    · split <;> omega

theorem round_half_even_nonpos {x : ℚ} (hx : x ≤ 0) : round_half_even x ≤ 0 := by
  unfold round_half_even
  have h0 : ⌊x⌋ ≤ 0 := by
    have := Int.floor_le_floor (α := ℚ) hx
    simpa using this
  dsimp only
  split
  · exact h0
  · rename_i h₁
    have hfr : (1:ℚ)/2 ≤ x - ⌊x⌋ := le_of_not_lt h₁
    have hneg : (⌊x⌋ : ℚ) ≤ -(1/2) := by linarith
    have hlt : (⌊x⌋ : ℚ) < 0 := lt_of_le_of_lt hneg (by norm_num)
    have : ⌊x⌋ ≤ -1 := by
      have : ⌊x⌋ < 0 := by exact_mod_cast hlt
      omega
    split
    · omega
    · split <;> omega

theorem py_round2_nonneg {q : ℚ} (h : 0 ≤ q) : 0 ≤ py_round2 q := by
  unfold py_round2
  have : (0:ℤ) ≤ round_half_even (q * 100) := round_half_even_nonneg (by positivity)
  positivity

theorem py_round2_nonpos {q : ℚ} (h : q ≤ 0) : py_round2 q ≤ 0 := by
  unfold py_round2
  have h1 : round_half_even (q * 100) ≤ 0 := round_half_even_nonpos (by nlinarith)
  have h2 : ((round_half_even (q * 100) : ℚ)) ≤ 0 := by exact_mod_cast h1
  linarith [div_nonpos_of_nonpos_of_nonneg h2 (by norm_num : (0:ℚ) ≤ 100)]

theorem py_round2_exact {q : ℚ} (c : ℤ) (h : q * 100 = (c:ℚ)) : py_round2 q = (c:ℚ)/100 := by
  unfold py_round2
  rw [h, round_half_even_intCast]

theorem c8_amended :
    (∀ g : TGroup,
      (finalize_group g).gp = py_round2 (g.bill_sum - g.pay_sum) ∧
      (finalize_group g).hourly_gp =
        py_round2 (if 0 < g.total_hours then (g.bill_sum - g.pay_sum) / g.total_hours else 0) ∧
      (finalize_group g).commission_rate = "10.00%" ∧
      (finalize_group g).commission = py_round2 ((g.bill_sum - g.pay_sum) * 0.10) ∧
      (finalize_group g).status = "Contract (" ++ g.employment_type ++ ")" ∧
      (finalize_group g).day = 1 ∧
      (finalize_group g).month = g.month ∧ (finalize_group g).year = g.year) ∧
    ((finalize_group
      { employee_name := "Emp", client := "Cli", employment_type := "Contract",
        month := "August", year := 2025, total_hours := 40, bill_sum := 500,
        pay_sum := 350 }).gp = 150 ∧
     (finalize_group
      { employee_name := "Emp", client := "Cli", employment_type := "Contract",
        month := "August", year := 2025, total_hours := 40, bill_sum := 500,
        pay_sum := 350 }).hourly_gp = 3.75 ∧
     (finalize_group
      { employee_name := "Emp", client := "Cli", employment_type := "Contract",
        month := "August", year := 2025, total_hours := 40, bill_sum := 500,
        pay_sum := 350 }).commission = 15 ∧
     (finalize_group
      { employee_name := "Emp", client := "Cli", employment_type := "Contract",
        month := "August", year := 2025, total_hours := 40, bill_sum := 500,
        pay_sum := 350 }).status = "Contract (Contract)") := by
  constructor
  · refine fun g => ⟨?_, ?_, ?_, ?_, ?_, ?_, ?_, ?_⟩ <;> rfl
  · refine ⟨?_, ?_, ?_, rfl⟩
    · show py_round2 ((500:ℚ) - 350) = 150
      rw [py_round2_exact 15000 (by norm_num)]; norm_num
    · show py_round2 (if (0:ℚ) < 40 then ((500:ℚ) - 350) / 40 else 0) = 3.75
      rw [if_pos (by norm_num : (0:ℚ) < 40), py_round2_exact 375 (by norm_num)]; norm_num
    · show py_round2 (((500:ℚ) - 350) * 0.10) = 15
      rw [py_round2_exact 1500 (by norm_num)]; norm_num

theorem c8_counterexample :
    (finalize_group
      { employee_name := "E", client := "C", employment_type := "Contract",
        month := "August", year := 2025, total_hours := 0, bill_sum := 0.005, pay_sum := 0 }).gp ≠
      (0.005 : ℚ) - 0 := by
  show py_round2 ((0.005:ℚ) - 0) ≠ (0.005:ℚ) - 0
  rw [py_round2_eval (round_half_even_tie_even (n := 0) (by norm_num) (by norm_num))]
  norm_num

theorem c6_amended (q : ℚ) :
    (20000 < q ∧ q < 60000 → parse_date (PyVal.num q) = some ⟨(SERIAL_EPOCH_DAYS : ℚ) + q⟩) ∧
    (¬(20000 < q ∧ q < 60000) → parse_date (PyVal.num q) = pd_to_datetime (PyVal.num q)) ∧
    (parse_date (PyVal.num 44000)).map pdate_year = some 2020 ∧
    (parse_date (PyVal.num 19999)).map pdate_year = some 1970 := by
  refine ⟨fun h => ?_, fun h => ?_, ?_, ?_⟩
  · simp only [parse_date]
    rw [if_pos h]
  · simp only [parse_date]
    rw [if_neg h]
  · simp only [parse_date]
    rw [if_pos (by norm_num : (20000:ℚ) < 44000 ∧ (44000:ℚ) < 60000)]
    rw [show ((SERIAL_EPOCH_DAYS:ℚ) + 44000) = ((18431:ℤ):ℚ) by norm_num [SERIAL_EPOCH_DAYS]]
    simp only [Option.map, pdate_year, Int.floor_intCast]
    decide
  · simp only [parse_date]
    rw [if_neg (by norm_num : ¬((20000:ℚ) < 19999 ∧ (19999:ℚ) < 60000))]
    simp only [pd_to_datetime]
    rw [if_pos (by constructor <;> norm_num [TS_BOUND])]
    have hfl : ⌊(19999:ℚ)/NS_PER_DAY⌋ = 0 := Int.floor_eq_iff.mpr (by norm_num [NS_PER_DAY])
    simp only [Option.map, pdate_year, hfl]
    decide

theorem c6_witness :
    ((20000:ℚ) < 44000 ∧ (44000:ℚ) < 60000) ∧
    parse_date (PyVal.num 44000) = some ⟨(SERIAL_EPOCH_DAYS : ℚ) + 44000⟩ :=
  ⟨⟨by norm_num, by norm_num⟩, (c6_amended 44000).1 ⟨by norm_num, by norm_num⟩⟩

theorem c6_counterexample :
    parse_date (PyVal.num 19999) = some ⟨(19999:ℚ) / NS_PER_DAY⟩ := by
  simp only [parse_date]
  rw [if_neg (by norm_num : ¬((20000:ℚ) < 19999 ∧ (19999:ℚ) < 60000))]
  simp only [pd_to_datetime]
  rw [if_pos (by constructor <;> norm_num [TS_BOUND])]

theorem c2_amended (pf : List Attempt) (rest : List (List Attempt)) (k : ErrKind)
    (h : get_with_fallback pf = Except.error k) :
    get_bbo_commission_data (pf :: rest) = [] := by
  unfold get_bbo_commission_data get_commission_rows_from_timesheets rows_loop
  rw [h]
  cases k <;> simp [finalize_agg]

theorem c2_witness :
    get_with_fallback [Attempt.timeout] = Except.error ErrKind.general ∧
    get_bbo_commission_data [[Attempt.timeout]] = [] :=
  ⟨rfl, c2_amended [Attempt.timeout] [] ErrKind.general rfl⟩

theorem c2_counterexample :
    get_with_fallback [Attempt.http 401] = Except.error ErrKind.authFailed ∧
    get_bbo_commission_data [[Attempt.http 401]] = [] := by
  constructor
  · rfl
  · rfl

theorem ledger_has_key_iff {L : List Fact} {k : String} :
    ledger_has_key L k = true ↔ ∃ r ∈ L, r.unique_key = k := by
  simp [ledger_has_key, List.any_eq_true]

theorem c1_amended :
    (∀ (L : List Fact) (pc : Nat) (f : Fact),
      (∃ r ∈ L, r.unique_key = f.unique_key) → upload_step L pc f = (L, pc)) ∧
    (∀ (L : List Fact) (pc : Nat) (f : Fact),
      (∀ r ∈ L, r.unique_key ≠ f.unique_key) → upload_step L pc f = (L ++ [f], pc + 1)) ∧
    (∀ (nY : Nat) (eid : String → Option Nat) (sm : String) (sy : Nat)
        (L : List Fact) (pc : Nat) (rec : SRec),
      (∃ r ∈ L, r.unique_key = (sync_build nY eid sm sy rec).unique_key) →
      sync_step nY eid sm sy L pc rec = (L, pc)) ∧
    (∀ (nY : Nat) (eid : String → Option Nat) (sm : String) (sy : Nat)
        (L : List Fact) (pc : Nat) (rec : SRec),
      (∀ r ∈ L, r.unique_key ≠ (sync_build nY eid sm sy rec).unique_key) →
      sync_step nY eid sm sy L pc rec = (L ++ [sync_build nY eid sm sy rec], pc + 1)) := by
  refine ⟨fun L pc f h => ?_, fun L pc f h => ?_, fun nY eid sm sy L pc rec h => ?_,
    fun nY eid sm sy L pc rec h => ?_⟩
  · unfold upload_step
    rw [if_pos (ledger_has_key_iff.mpr h)]
  · unfold upload_step
    rw [if_neg (by simp only [ledger_has_key_iff]; push_neg; exact h)]
  · unfold sync_step
    rw [if_pos (ledger_has_key_iff.mpr h)]
  · unfold sync_step
    rw [if_neg (by simp only [ledger_has_key_iff]; push_neg; exact h)]

theorem c1_witness : upload_step [c1_existing] 0 c1_incoming = ([c1_existing], 0) :=
  c1_amended.1 [c1_existing] 0 c1_incoming ⟨c1_existing, List.mem_singleton.mpr rfl, rfl⟩

theorem c1_counterexample :
    (upload_step [c1_existing] 0 c1_incoming).1.map (fun r => r.gp) = [(1:ℚ)] ∧
    c1_incoming.gp = 2 ∧ (1:ℚ) ≠ 2 := by
  refine ⟨?_, rfl, by norm_num⟩
  rfl

theorem infer_rate_pct {status : String} {g : ℚ} {s : String} {v : ℚ}
    (he : ends_pct (py_strip s) = true) (hp : py_float (rstrip_pct (py_strip s)) = some v) :
    infer_commission_rate status g (some s) = (fmt2 v ++ "%", v / 100) := by
  simp only [infer_commission_rate]
  rw [if_pos he, hp]
  dsimp only
  rw [div_mul_cancel₀ v (by norm_num : (100:ℚ) ≠ 0)]

theorem infer_rate_bare {status : String} {g : ℚ} {s : String} {v : ℚ}
    (he : ends_pct (py_strip s) = false) (hp : py_float (py_strip s) = some v) :
    infer_commission_rate status g (some s) =
      (fmt2 ((if 1 < v then v / 100 else v) * 100) ++ "%", if 1 < v then v / 100 else v) := by
  simp only [infer_commission_rate]
  rw [if_neg (by rw [he]; exact Bool.false_ne_true), hp]

theorem infer_rate_fb (status : String) (g : ℚ) :
    (if has_enterprise status then (("9.75%":String), (0.0975:ℚ)) else ("10.00%", (0.10:ℚ))).1 =
      fmt2 ((if has_enterprise status then (("9.75%":String), (0.0975:ℚ))
             else ("10.00%", (0.10:ℚ))).2 * 100) ++ "%" := by
  by_cases h : has_enterprise status
  · rw [if_pos h]
    show "9.75%" = fmt2 ((0.0975:ℚ) * 100) ++ "%"
    rw [show (0.0975:ℚ) * 100 = 9.75 by norm_num, fmt2_of_nonneg 975 (by norm_num) (by norm_num)]
    decide
  · rw [if_neg h]
    show "10.00%" = fmt2 ((0.10:ℚ) * 100) ++ "%"
    rw [show (0.10:ℚ) * 100 = 10 by norm_num, fmt2_of_nonneg 1000 (by norm_num) (by norm_num)]
    decide

theorem py_float_975 : py_float (rstrip_pct (py_strip "9.75%")) = some ((39:ℚ)/4) := by
  rw [show py_float (rstrip_pct (py_strip "9.75%"))
      = some (int_val ['9'] + frac_val ['7', '5']) from rfl]
  congr 1
  simp only [int_val, frac_val, char_digit, List.foldl, List.length]
  norm_num [show '9'.toNat - 48 = 9 from rfl, show '7'.toNat - 48 = 7 from rfl,
    show '5'.toNat - 48 = 5 from rfl]

theorem c5_rate_resolver :
    (∀ (status : String) (g : ℚ),
        infer_commission_rate status g (some "9.75%") = ("9.75%", 0.0975)) ∧
    (∀ (status : String) (g : ℚ) (s : String) (v : ℚ),
        ends_pct (py_strip s) = true → py_float (rstrip_pct (py_strip s)) = some v →
        (infer_commission_rate status g (some s)).2 = v / 100) ∧
    (∀ (status : String) (g : ℚ) (s : String) (v : ℚ),
        ends_pct (py_strip s) = false → py_float (py_strip s) = some v → 1 < v →
        (infer_commission_rate status g (some s)).2 = v / 100) ∧
    (∀ (status : String) (g : ℚ) (s : String) (v : ℚ),
        ends_pct (py_strip s) = false → py_float (py_strip s) = some v → ¬ 1 < v →
        (infer_commission_rate status g (some s)).2 = v) ∧
    (∀ (status : String) (g : ℚ),
        infer_commission_rate status g Option.none =
          (if has_enterprise status then ("9.75%", 0.0975) else ("10.00%", 0.10))) ∧
    (∀ (status : String) (g : ℚ) (s : String),
        (if ends_pct (py_strip s) = true then py_float (rstrip_pct (py_strip s))
         else py_float (py_strip s)) = Option.none →
        infer_commission_rate status g (some s) =
          (if has_enterprise status then ("9.75%", 0.0975) else ("10.00%", 0.10))) ∧
    (∀ (status : String) (g : ℚ) (pr : Option String),
        (infer_commission_rate status g pr).1 =
          fmt2 ((infer_commission_rate status g pr).2 * 100) ++ "%") := by
  refine ⟨?_, ?_, ?_, ?_, ?_, ?_, ?_⟩
  · intro status g
    rw [infer_rate_pct (by decide) py_float_975]
    rw [fmt2_of_nonneg 975 (by norm_num) (by norm_num)]
    refine Prod.ext ?_ ?_
    · decide
    · norm_num
  · intro status g s v he hp
    rw [infer_rate_pct he hp]
  · intro status g s v he hp hv
    rw [infer_rate_bare he hp]
    simp [if_pos hv]
  · intro status g s v he hp hv
    rw [infer_rate_bare he hp]
    simp [if_neg hv]
  · intro status g
    rfl
  · intro status g s hn
    simp only [infer_commission_rate]
    by_cases he : ends_pct (py_strip s) = true
    · rw [if_pos he]
      rw [if_pos he] at hn
      rw [hn]
    · rw [if_neg he]
      rw [if_neg he] at hn
      rw [hn]
  · intro status g pr
    match pr with
    | Option.none => exact infer_rate_fb status g
    | some s =>
      simp only [infer_commission_rate]
      by_cases he : ends_pct (py_strip s) = true
      · rw [if_pos he]
        match hp : py_float (rstrip_pct (py_strip s)) with
        | some v => dsimp only
        | Option.none => exact infer_rate_fb status g
      · rw [if_neg he]
        match hp : py_float (py_strip s) with
        | some v => dsimp only
        | Option.none => exact infer_rate_fb status g

theorem c5_witness :
    (ends_pct (py_strip "9.75%") = true ∧
      py_float (rstrip_pct (py_strip "9.75%")) = some ((39:ℚ)/4)) ∧
    (infer_commission_rate "Enterprise" 100 (some "9.75%")).2 = (39:ℚ)/4 / 100 :=
  ⟨⟨by decide, py_float_975⟩,
    c5_rate_resolver.2.1 "Enterprise" 100 "9.75%" ((39:ℚ)/4) (by decide) py_float_975⟩

theorem c10_column_matcher (row : List (String × PyVal)) (cands : List String) :
    (∀ v : PyVal, first_match row cands = some v ↔
      ∃ pre key post, cands = pre ++ key :: post ∧
        (∀ c ∈ pre, ∀ w, row.lookup c = some w → good_val w = false) ∧
        row.lookup key = some v ∧ good_val v = true) ∧
    (first_match row cands = Option.none ↔
      ∀ c ∈ cands, ∀ w, row.lookup c = some w → good_val w = false) := by
  induction cands with
  | nil =>
    constructor
    · intro v
      constructor
      · intro h
        simp [first_match] at h
      · rintro ⟨pre, key, post, habs, -⟩
        exact absurd habs (by cases pre <;> simp)
    · constructor
      · intro _
        intro c hc
        simp at hc
      · intro _
        rfl
  | cons k rest ih =>
    obtain ⟨ihs, ihn⟩ := ih
    cases hlk : row.lookup k with
    | none =>
      have hred : first_match row (k :: rest) = first_match row rest := by
        simp only [first_match, hlk]
      constructor
      · intro v
        rw [hred]
        constructor
        · intro h
          obtain ⟨pre, key, post, hc, hpre, hkey, hgood⟩ := (ihs v).mp h
          refine ⟨k :: pre, key, post, by simp [hc], ?_, hkey, hgood⟩
          intro c hc' w hw
          rcases List.mem_cons.mp hc' with rfl | hmem
          · rw [hlk] at hw
            cases hw
          · exact hpre c hmem w hw
        · rintro ⟨pre, key, post, hc, hpre, hkey, hgood⟩
          cases pre with
          | nil =>
            simp only [List.nil_append, List.cons.injEq] at hc
            obtain ⟨rfl, rfl⟩ := hc
            rw [hlk] at hkey
            cases hkey
          | cons a pre' =>
            simp only [List.cons_append, List.cons.injEq] at hc
            obtain ⟨rfl, hc'⟩ := hc
            exact (ihs v).mpr ⟨pre', key, post, hc',
              fun c hcm w hw => hpre c (List.mem_cons_of_mem _ hcm) w hw, hkey, hgood⟩
      · rw [hred]
        constructor
        · intro h c hc w hw
          rcases List.mem_cons.mp hc with rfl | hmem
          · rw [hlk] at hw
            cases hw
          · exact ihn.mp h c hmem w hw
        · intro h
          exact ihn.mpr fun c hc w hw => h c (List.mem_cons_of_mem _ hc) w hw
    | some w =>
      by_cases hg : good_val w = true
      · have hred : first_match row (k :: rest) = some w := by
          simp only [first_match, hlk]
          rw [if_pos hg]
        constructor
        · intro v
          rw [hred]
          constructor
          · intro h
            cases h
            exact ⟨[], k, rest, rfl, by simp, hlk, hg⟩
          · rintro ⟨pre, key, post, hc, hpre, hkey, hgood⟩
            cases pre with
            | nil =>
              simp only [List.nil_append, List.cons.injEq] at hc
              obtain ⟨rfl, rfl⟩ := hc
              rw [hlk] at hkey
              cases hkey
              rfl
            | cons a pre' =>
              simp only [List.cons_append, List.cons.injEq] at hc
              obtain ⟨rfl, -⟩ := hc
              have := hpre k (List.mem_cons_self _ _) w hlk
              rw [this] at hg
              cases hg
        · rw [hred]
          constructor
          · intro h
            cases h
          · intro h
            have := h k (List.mem_cons_self _ _) w hlk
            rw [this] at hg
            cases hg
      · have hgf : good_val w = false := by
          cases hgv : good_val w
          · rfl
          · exact absurd hgv hg
        have hred : first_match row (k :: rest) = first_match row rest := by
          simp only [first_match, hlk]
          rw [if_neg (by rw [hgf]; exact Bool.false_ne_true)]
        constructor
        · intro v
          rw [hred]
          constructor
          · intro h
            obtain ⟨pre, key, post, hc, hpre, hkey, hgood⟩ := (ihs v).mp h
            refine ⟨k :: pre, key, post, by simp [hc], ?_, hkey, hgood⟩
            intro c hc' w' hw'
            rcases List.mem_cons.mp hc' with rfl | hmem
            · rw [hlk] at hw'
              cases hw'
              exact hgf
            · exact hpre c hmem w' hw'
          · rintro ⟨pre, key, post, hc, hpre, hkey, hgood⟩
            cases pre with
            | nil =>
              simp only [List.nil_append, List.cons.injEq] at hc
              obtain ⟨rfl, rfl⟩ := hc
              rw [hlk] at hkey
              cases hkey
              rw [hgood] at hgf
              cases hgf
            | cons a pre' =>
              simp only [List.cons_append, List.cons.injEq] at hc
              obtain ⟨rfl, hc'⟩ := hc
              exact (ihs v).mpr ⟨pre', key, post, hc',
                fun c hcm w' hw' => hpre c (List.mem_cons_of_mem _ hcm) w' hw', hkey, hgood⟩
        · rw [hred]
          constructor
          · intro h c hc w' hw'
            rcases List.mem_cons.mp hc with rfl | hmem
            · rw [hlk] at hw'
              cases hw'
              exact hgf
            · exact ihn.mp h c hmem w' hw'
          · intro h
            exact ihn.mpr fun c hc w' hw' => h c (List.mem_cons_of_mem _ hc) w' hw'

theorem string_data_inj {s₁ s₂ : String} (h : s₁.data = s₂.data) : s₁ = s₂ := by
  cases s₁; cases s₂; exact congrArg String.mk h

theorem key7_ne_1 {x₁ x₂ y z u v w t : String} (h : x₁ ≠ x₂) :
    x₁ ++ "|" ++ y ++ "|" ++ z ++ "|" ++ u ++ "|" ++ v ++ "|" ++ w ++ "|" ++ t ≠
    x₂ ++ "|" ++ y ++ "|" ++ z ++ "|" ++ u ++ "|" ++ v ++ "|" ++ w ++ "|" ++ t := by
  intro hkey
  apply h
  apply string_data_inj
  have hd := congrArg String.data hkey
  simp only [String.data_append, List.append_assoc] at hd
  exact List.append_cancel_right hd

theorem key7_ne_2 {x y₁ y₂ z u v w t : String} (h : y₁ ≠ y₂) :
    x ++ "|" ++ y₁ ++ "|" ++ z ++ "|" ++ u ++ "|" ++ v ++ "|" ++ w ++ "|" ++ t ≠
    x ++ "|" ++ y₂ ++ "|" ++ z ++ "|" ++ u ++ "|" ++ v ++ "|" ++ w ++ "|" ++ t := by
  intro hkey
  apply h
  apply string_data_inj
  have hd := congrArg String.data hkey
  simp only [String.data_append, List.append_assoc] at hd
  exact List.append_cancel_right
    (List.append_cancel_left (List.append_cancel_left hd))

theorem key7_ne_3 {x y z₁ z₂ u v w t : String} (h : z₁ ≠ z₂) :
    x ++ "|" ++ y ++ "|" ++ z₁ ++ "|" ++ u ++ "|" ++ v ++ "|" ++ w ++ "|" ++ t ≠
    x ++ "|" ++ y ++ "|" ++ z₂ ++ "|" ++ u ++ "|" ++ v ++ "|" ++ w ++ "|" ++ t := by
  intro hkey
  apply h
  apply string_data_inj
  have hd := congrArg String.data hkey
  simp only [String.data_append, List.append_assoc] at hd
  exact List.append_cancel_right
    (List.append_cancel_left (List.append_cancel_left
      (List.append_cancel_left (List.append_cancel_left hd))))

theorem key7_ne_4 {x y z u₁ u₂ v w t : String} (h : u₁ ≠ u₂) :
    x ++ "|" ++ y ++ "|" ++ z ++ "|" ++ u₁ ++ "|" ++ v ++ "|" ++ w ++ "|" ++ t ≠
    x ++ "|" ++ y ++ "|" ++ z ++ "|" ++ u₂ ++ "|" ++ v ++ "|" ++ w ++ "|" ++ t := by
  intro hkey
  apply h
  apply string_data_inj
  have hd := congrArg String.data hkey
  simp only [String.data_append, List.append_assoc] at hd
  exact List.append_cancel_right
    (List.append_cancel_left (List.append_cancel_left
      (List.append_cancel_left (List.append_cancel_left
        (List.append_cancel_left (List.append_cancel_left hd))))))

theorem key7_ne_5 {x y z u v₁ v₂ w t : String} (h : v₁ ≠ v₂) :
    x ++ "|" ++ y ++ "|" ++ z ++ "|" ++ u ++ "|" ++ v₁ ++ "|" ++ w ++ "|" ++ t ≠
    x ++ "|" ++ y ++ "|" ++ z ++ "|" ++ u ++ "|" ++ v₂ ++ "|" ++ w ++ "|" ++ t := by
  intro hkey
  apply h
  apply string_data_inj
  have hd := congrArg String.data hkey
  simp only [String.data_append, List.append_assoc] at hd
  exact List.append_cancel_right
    (List.append_cancel_left (List.append_cancel_left
      (List.append_cancel_left (List.append_cancel_left
        (List.append_cancel_left (List.append_cancel_left
          (List.append_cancel_left (List.append_cancel_left hd))))))))

theorem key7_ne_6 {x y z u v w₁ w₂ t : String} (h : w₁ ≠ w₂) :
    x ++ "|" ++ y ++ "|" ++ z ++ "|" ++ u ++ "|" ++ v ++ "|" ++ w₁ ++ "|" ++ t ≠
    x ++ "|" ++ y ++ "|" ++ z ++ "|" ++ u ++ "|" ++ v ++ "|" ++ w₂ ++ "|" ++ t := by
  intro hkey
  apply h
  apply string_data_inj
  have hd := congrArg String.data hkey
  simp only [String.data_append, List.append_assoc] at hd
  exact List.append_cancel_right
    (List.append_cancel_left (List.append_cancel_left
      (List.append_cancel_left (List.append_cancel_left
        (List.append_cancel_left (List.append_cancel_left
          (List.append_cancel_left (List.append_cancel_left
            (List.append_cancel_left (List.append_cancel_left hd))))))))))

theorem key7_ne_7 {x y z u v w t₁ t₂ : String} (h : t₁ ≠ t₂) :
    x ++ "|" ++ y ++ "|" ++ z ++ "|" ++ u ++ "|" ++ v ++ "|" ++ w ++ "|" ++ t₁ ≠
    x ++ "|" ++ y ++ "|" ++ z ++ "|" ++ u ++ "|" ++ v ++ "|" ++ w ++ "|" ++ t₂ := by
  intro hkey
  apply h
  apply string_data_inj
  have hd := congrArg String.data hkey
  simp only [String.data_append, List.append_assoc] at hd
  exact List.append_cancel_left (List.append_cancel_left
    (List.append_cancel_left (List.append_cancel_left
      (List.append_cancel_left (List.append_cancel_left
        (List.append_cancel_left (List.append_cancel_left
          (List.append_cancel_left (List.append_cancel_left
            (List.append_cancel_left (List.append_cancel_left hd)))))))))))

theorem c4_dedupe_key_determinism :
    (∀ (nowYear : Nat) (r₁ r₂ : KeyRec),
      r₁.placement_id = Option.none → r₂.placement_id = Option.none →
      (r₁.year, r₁.month, r₁.day, r₁.employee_name, r₁.client, r₁.status, r₁.gp) =
        (r₂.year, r₂.month, r₂.day, r₂.employee_name, r₂.client, r₂.status, r₂.gp) →
      dedupe_key nowYear r₁ = dedupe_key nowYear r₂) ∧
    (∀ (nowYear : Nat) (r₁ r₂ : KeyRec),
      r₁.placement_id = Option.none → r₂.placement_id = Option.none →
      r₁.year ≠ 0 → r₂.year ≠ 0 → r₁.month ≠ "" → r₂.month ≠ "" →
      r₁.day ≠ 0 → r₂.day ≠ 0 →
      ((r₁.year ≠ r₂.year ∧ r₁.month = r₂.month ∧ r₁.day = r₂.day ∧
        r₁.employee_name = r₂.employee_name ∧ r₁.client = r₂.client ∧
        r₁.status = r₂.status ∧ fmt2 r₁.gp = fmt2 r₂.gp) ∨
       (r₁.year = r₂.year ∧ r₁.month ≠ r₂.month ∧ r₁.day = r₂.day ∧
        r₁.employee_name = r₂.employee_name ∧ r₁.client = r₂.client ∧
        r₁.status = r₂.status ∧ fmt2 r₁.gp = fmt2 r₂.gp) ∨
       (r₁.year = r₂.year ∧ r₁.month = r₂.month ∧ r₁.day ≠ r₂.day ∧
        r₁.employee_name = r₂.employee_name ∧ r₁.client = r₂.client ∧
        r₁.status = r₂.status ∧ fmt2 r₁.gp = fmt2 r₂.gp) ∨
       (r₁.year = r₂.year ∧ r₁.month = r₂.month ∧ r₁.day = r₂.day ∧
        r₁.employee_name ≠ r₂.employee_name ∧ r₁.client = r₂.client ∧
        r₁.status = r₂.status ∧ fmt2 r₁.gp = fmt2 r₂.gp) ∨
       (r₁.year = r₂.year ∧ r₁.month = r₂.month ∧ r₁.day = r₂.day ∧
        r₁.employee_name = r₂.employee_name ∧ r₁.client ≠ r₂.client ∧
        r₁.status = r₂.status ∧ fmt2 r₁.gp = fmt2 r₂.gp) ∨
       (r₁.year = r₂.year ∧ r₁.month = r₂.month ∧ r₁.day = r₂.day ∧
        r₁.employee_name = r₂.employee_name ∧ r₁.client = r₂.client ∧
        r₁.status ≠ r₂.status ∧ fmt2 r₁.gp = fmt2 r₂.gp) ∨
       (r₁.year = r₂.year ∧ r₁.month = r₂.month ∧ r₁.day = r₂.day ∧
        r₁.employee_name = r₂.employee_name ∧ r₁.client = r₂.client ∧
        r₁.status = r₂.status ∧ fmt2 r₁.gp ≠ fmt2 r₂.gp)) →
      dedupe_key nowYear r₁ ≠ dedupe_key nowYear r₂) := by
  constructor
  · intro nowYear r₁ r₂ hp₁ hp₂ htup
    obtain ⟨p₁, e₁, c₁, s₁, g₁, m₁, d₁, y₁⟩ := r₁
    obtain ⟨p₂, e₂, c₂, s₂, g₂, m₂, d₂, y₂⟩ := r₂
    simp only at hp₁ hp₂
    subst hp₁
    subst hp₂
    simp only [Prod.mk.injEq] at htup
    obtain ⟨rfl, rfl, rfl, rfl, rfl, rfl, rfl⟩ := htup
    rfl
  · intro nowYear r₁ r₂ hp₁ hp₂ hy₁ hy₂ hm₁ hm₂ hd₁ hd₂ hdiff
    obtain ⟨p₁, e₁, c₁, s₁, g₁, m₁, d₁, y₁⟩ := r₁
    obtain ⟨p₂, e₂, c₂, s₂, g₂, m₂, d₂, y₂⟩ := r₂
    simp only at hp₁ hp₂ hy₁ hy₂ hm₁ hm₂ hd₁ hd₂ hdiff
    subst hp₁
    subst hp₂
    simp only [dedupe_key]
    rw [if_neg hy₁, if_neg hm₁, if_neg hd₁, if_neg hy₂, if_neg hm₂, if_neg hd₂]
    rcases hdiff with ⟨hne, rfl, rfl, rfl, rfl, rfl, hgp⟩ |
      ⟨rfl, hne, rfl, rfl, rfl, rfl, hgp⟩ | ⟨rfl, rfl, hne, rfl, rfl, rfl, hgp⟩ |
      ⟨rfl, rfl, rfl, hne, rfl, rfl, hgp⟩ | ⟨rfl, rfl, rfl, rfl, hne, rfl, hgp⟩ |
      ⟨rfl, rfl, rfl, rfl, rfl, hne, hgp⟩ | ⟨rfl, rfl, rfl, rfl, rfl, rfl, hne⟩
    · rw [hgp]
      exact key7_ne_1 (fun he => hne (natStr_inj he))
    · rw [hgp]
      exact key7_ne_2 hne
    · rw [hgp]
      exact key7_ne_3 (fun he => hne (natStr_inj he))
    · rw [hgp]
      exact key7_ne_4 hne
    · rw [hgp]
      exact key7_ne_5 hne
    · rw [hgp]
      exact key7_ne_6 hne
    · exact key7_ne_7 hne

theorem c4_witness :
    dedupe_key 2026
      { placement_id := Option.none, employee_name := "Ann", client := "Acme",
        status := "New", gp := 1, month := "May", day := 2, year := 2025 } ≠
    dedupe_key 2026
      { placement_id := Option.none, employee_name := "Bob", client := "Acme",
        status := "New", gp := 1, month := "May", day := 2, year := 2025 } :=
  c4_dedupe_key_determinism.2 2026 _ _ rfl rfl (by decide) (by decide) (by decide)
    (by decide) (by decide) (by decide)
    (Or.inr (Or.inr (Or.inr (Or.inl ⟨rfl, rfl, rfl, by decide, rfl, rfl, rfl⟩))))

theorem ledger_has_key_append (L₁ L₂ : List Fact) (k : String) :
    ledger_has_key (L₁ ++ L₂) k = (ledger_has_key L₁ k || ledger_has_key L₂ k) := by
  simp [ledger_has_key, List.any_append]

theorem upload_step_preserves {L : List Fact} {pc : Nat} {f : Fact} {k : String}
    (h : ledger_has_key L k = true) :
    ledger_has_key (upload_step L pc f).1 k = true := by
  unfold upload_step
  by_cases hc : ledger_has_key L f.unique_key = true
  · rw [if_pos hc]
    exact h
  · rw [if_neg hc]
    show ledger_has_key (L ++ [f]) k = true
    rw [ledger_has_key_append, h]
    rfl

theorem upload_step_has_self {L : List Fact} {pc : Nat} {f : Fact} :
    ledger_has_key (upload_step L pc f).1 f.unique_key = true := by
  unfold upload_step
  by_cases hc : ledger_has_key L f.unique_key = true
  · rw [if_pos hc]
    exact hc
  · rw [if_neg hc]
    show ledger_has_key (L ++ [f]) f.unique_key = true
    rw [ledger_has_key_append]
    simp [ledger_has_key]

theorem upload_fold_preserves (nY : Nat) (eid : String → Option Nat) :
    ∀ (rows : List (List (String × PyVal))) (st : List Fact × Nat) (k : String),
      ledger_has_key st.1 k = true →
      ledger_has_key (upload_fold nY eid st rows).1 k = true := by
  intro rows
  induction rows with
  | nil => intro st k h; exact h
  | cons a rest ih =>
    intro st k h
    cases hna : normalize_row nY eid a with
    | none =>
      simp only [upload_fold, hna]
      exact ih st k h
    | some f =>
      simp only [upload_fold, hna]
      exact ih _ k (upload_step_preserves h)

theorem upload_fold_covers (nY : Nat) (eid : String → Option Nat) :
    ∀ (rows : List (List (String × PyVal))) (st : List Fact × Nat)
      (r : List (String × PyVal)), r ∈ rows → ∀ (f : Fact),
      normalize_row nY eid r = some f →
      ledger_has_key (upload_fold nY eid st rows).1 f.unique_key = true := by
  intro rows
  induction rows with
  | nil =>
    intro st r hr
    simp at hr
  | cons a rest ih =>
    intro st r hr f hf
    rcases List.mem_cons.mp hr with rfl | hmem
    · simp only [upload_fold, hf]
      exact upload_fold_preserves nY eid rest _ _ upload_step_has_self
    · cases hna : normalize_row nY eid a with
      | none =>
        simp only [upload_fold, hna]
        exact ih st r hmem f hf
      | some _ =>
        simp only [upload_fold, hna]
        exact ih _ r hmem f hf

theorem upload_fold_fixed (nY : Nat) (eid : String → Option Nat) :
    ∀ (rows : List (List (String × PyVal))) (L : List Fact) (n : Nat),
      (∀ r ∈ rows, ∀ f, normalize_row nY eid r = some f →
        ledger_has_key L f.unique_key = true) →
      upload_fold nY eid (L, n) rows = (L, n) := by
  intro rows
  induction rows with
  | nil => intro L n _; rfl
  | cons a rest ih =>
    intro L n h
    cases hna : normalize_row nY eid a with
    | none =>
      simp only [upload_fold, hna]
      exact ih L n (fun r hr f hf => h r (List.mem_cons_of_mem _ hr) f hf)
    | some f =>
      simp only [upload_fold, hna]
      have hk := h a (List.mem_cons_self _ _) f hna
      rw [show upload_step L n f = (L, n) by unfold upload_step; rw [if_pos hk]]
      exact ih L n (fun r hr f' hf' => h r (List.mem_cons_of_mem _ hr) f' hf')

theorem c3_amended (nY : Nat) (eid : String → Option Nat) (L : List Fact)
    (rows : List (List (String × PyVal))) :
    upload_run nY eid (upload_run nY eid L rows).1 rows =
      ((upload_run nY eid L rows).1, 0) := by
  unfold upload_run
  exact upload_fold_fixed nY eid rows _ 0
    (fun r hr f hf => upload_fold_covers nY eid rows (L, 0) r hr f hf)

theorem c3_counterexample :
    (upload_run 2025 (fun _ => Option.none) [] c3_rows).2 = 1 ∧
    (upload_run 2025 (fun _ => Option.none)
      (upload_run 2025 (fun _ => Option.none) [] c3_rows).1 c3_rows).2 = 0 := by
  have hs : (normalize_row 2025 (fun _ => Option.none)
      [("client", PyVal.str "A"), ("gp", PyVal.str "2"), ("employee", PyVal.str "B")]).isSome
      = true := rfl
  cases hn : normalize_row 2025 (fun _ => Option.none)
      [("client", PyVal.str "A"), ("gp", PyVal.str "2"), ("employee", PyVal.str "B")] with
  | none =>
    rw [hn] at hs
    cases hs
  | some f =>
    have h1 : upload_run 2025 (fun _ => Option.none) [] c3_rows = ([f], 1) := by
      unfold upload_run c3_rows
      simp only [upload_fold, hn]
      rw [show upload_step [] 0 f = ([f], 1) by
        unfold upload_step; rw [if_neg (by simp [ledger_has_key])]; rfl]
    constructor
    · rw [h1]
    · rw [h1]
      unfold upload_run c3_rows
      simp only [upload_fold, hn]
      rw [show upload_step [f] 0 f = ([f], 0) by
        unfold upload_step; rw [if_pos (by simp [ledger_has_key])]]

theorem c7_normalizer :
    (∀ (nY : Nat) (eid : String → Option Nat) (row : List (String × PyVal)) (f : Fact),
      normalize_row nY eid row = some f →
      (first_match row HOURS_COLS = Option.none ∨
       (∃ v, first_match row HOURS_COLS = some v ∧ py_to_numeric v = Option.none) ∨
       (∃ v q, first_match row HOURS_COLS = some v ∧ py_to_numeric v = some q ∧ q ≤ 0)) →
      f.hourly_gp = py_round2 (f.gp / 40)) ∧
    (∀ (nY : Nat) (eid : String → Option Nat),
      (normalize_row nY eid ajax_row).map
          (fun f => (f.gp, f.hourly_gp, f.commission_rate, f.commission, f.month, f.day, f.year)) =
        some (336.96, 8.42, "10.00%", 33.70, "Current", 1, nY)) := by
  constructor
  · intro nY eid row f hf hhours
    cases hgv : first_match row GP_COLS with
    | none =>
      simp only [normalize_row, hgv] at hf
      exact Option.noConfusion hf
    | some v =>
      cases hnum : py_to_numeric v with
      | none =>
        simp only [normalize_row, hgv, hnum] at hf
        exact Option.noConfusion hf
      | some g =>
        simp only [normalize_row, hgv, hnum] at hf
        split at hf
        case isFalse => exact Option.noConfusion hf
        case isTrue hguard =>
          injection hf with hf
          subst hf
          show py_round2 _ = py_round2 _
          rcases hhours with hm | ⟨v', hm, hv'⟩ | ⟨v', q, hm, hq, hle⟩
          · simp only [hm]
          · simp only [hm, hv']
          · simp only [hm, hq]
            rw [if_pos hle]
  · intro nY eid
    have h0 : (normalize_row nY eid ajax_row).map
        (fun f => (f.gp, f.hourly_gp, f.commission_rate, f.commission, f.month, f.day, f.year)) =
        some (int_val ['3','3','6'] + frac_val ['9','6'],
          py_round2 ((int_val ['3','3','6'] + frac_val ['9','6']) / 40),
          "10.00%",
          py_round2 ((int_val ['3','3','6'] + frac_val ['9','6']) * (0.10 : ℚ)),
          "Current", 1, nY) := rfl
    have hg : int_val ['3','3','6'] + frac_val ['9','6'] = (336.96 : ℚ) := by
      simp only [int_val, frac_val, char_digit, List.foldl, List.length]
      norm_num [show '3'.toNat - 48 = 3 from rfl, show '6'.toNat - 48 = 6 from rfl,
        show '9'.toNat - 48 = 9 from rfl]
    have hh : py_round2 ((336.96:ℚ) / 40) = 8.42 := by
      rw [py_round2_eval (round_half_even_low (n := 842) (by norm_num) (by norm_num))]
      norm_num
    have hc : py_round2 ((336.96:ℚ) * (0.10:ℚ)) = 33.70 := by
      rw [py_round2_eval (round_half_even_high (n := 3369) (by norm_num) (by norm_num))]
      norm_num
    rw [h0, hg, hh, hc]

theorem c7_witness :
    (normalize_row 2025 (fun _ => Option.none) c7_hours_row).map (fun f => f.hourly_gp) =
    (normalize_row 2025 (fun _ => Option.none) c7_hours_row).map
      (fun f => py_round2 (f.gp / 40)) := by
  cases hn : normalize_row 2025 (fun _ => Option.none) c7_hours_row with
  | none => rfl
  | some f =>
    have h := c7_normalizer.1 2025 (fun _ => Option.none) c7_hours_row f hn (Or.inl rfl)
    simp [h]

theorem c9_amended :
    (∀ (nY : Nat) (eid : String → Option Nat) (row : List (String × PyVal)) (f : Fact),
      normalize_row nY eid row = some f →
      0 ≤ (infer_commission_rate ((opt_str_of (first_match row STATUS_COLS)).getD "") f.gp
            (opt_str_of (first_match row RATE_COLS))).2 →
      (0 ≤ f.gp → 0 ≤ f.commission) ∧ (f.gp ≤ 0 → f.commission ≤ 0)) ∧
    (∀ (nY : Nat) (p : Placement) (r : BRow),
      format_placement nY p = some r →
      (0 ≤ r.gp → 0 ≤ r.commission) ∧ (r.gp ≤ 0 → r.commission ≤ 0)) ∧
    (∀ g : TGroup,
      (0 ≤ g.bill_sum - g.pay_sum → 0 ≤ (finalize_group g).commission) ∧
      (g.bill_sum - g.pay_sum ≤ 0 → (finalize_group g).commission ≤ 0)) ∧
    (∀ (nY : Nat) (eid : String → Option Nat) (row : List (String × PyVal)),
      (∃ c, first_match row CLIENT_COLS = some c ∧ py_truthy c = true) →
      (∃ e, first_match row EMP_COLS = some e ∧ py_truthy e = true) →
      (∃ v q, first_match row GP_COLS = some v ∧ py_to_numeric v = some q) →
      (normalize_row nY eid row).isSome = true) := by
  refine ⟨?_, ?_, ?_, ?_⟩
  · intro nY eid row f hf hrate
    cases hgv : first_match row GP_COLS with
    | none =>
      simp only [normalize_row, hgv] at hf
      exact Option.noConfusion hf
    | some v =>
      cases hnum : py_to_numeric v with
      | none =>
        simp only [normalize_row, hgv, hnum] at hf
        exact Option.noConfusion hf
      | some g =>
        simp only [normalize_row, hgv, hnum] at hf
        split at hf
        case isFalse => exact Option.noConfusion hf
        case isTrue hguard =>
          injection hf with hf
          subst hf
          simp only at hrate
          constructor
          · intro hg
            simp only at hg ⊢
            exact py_round2_nonneg (mul_nonneg hg hrate)
          · intro hg
            simp only at hg ⊢
            exact py_round2_nonpos (mul_nonpos_of_nonpos_of_nonneg hg hrate)
  · intro nY p r hr
    simp only [format_placement] at hr
    split at hr
    · exact Option.noConfusion hr
    · split at hr <;> split at hr <;>
        first
        | exact Option.noConfusion hr
        | (injection hr with hr
           subst hr
           refine ⟨fun hg => ?_, fun hg => ?_⟩
           · simp only at hg ⊢
             exact py_round2_nonneg (mul_nonneg hg (by norm_num))
           · simp only at hg ⊢
             exact py_round2_nonpos (mul_nonpos_of_nonpos_of_nonneg hg (by norm_num)))
  · intro g
    constructor
    · intro hg
      show 0 ≤ py_round2 ((g.bill_sum - g.pay_sum) * 0.10)
      exact py_round2_nonneg (mul_nonneg hg (by norm_num))
    · intro hg
      show py_round2 ((g.bill_sum - g.pay_sum) * 0.10) ≤ 0
      exact py_round2_nonpos (mul_nonpos_of_nonpos_of_nonneg hg (by norm_num))
  · intro nY eid row hc he hv
    obtain ⟨c, hc1, hc2⟩ := hc
    obtain ⟨e, he1, he2⟩ := he
    obtain ⟨v, q, hv1, hv2⟩ := hv
    simp only [normalize_row, hc1, hc2, he1, he2, hv1, hv2]
    rfl

theorem c9_counterexample :
    (normalize_row 2025 (fun _ => Option.none) c9_neg_rate_row).map
        (fun f => (f.gp, f.commission)) = some (100, -5) ∧
    ¬ (0 ≤ (-5 : ℚ)) := by
  constructor
  · have h0 : (normalize_row 2025 (fun _ => Option.none) c9_neg_rate_row).map
        (fun f => (f.gp, f.commission)) =
        some (int_val ['1','0','0'],
          py_round2 (int_val ['1','0','0'] * (-(int_val ['5']) / 100))) := rfl
    have h1 : int_val ['1','0','0'] = (100:ℚ) := by
      simp only [int_val, char_digit, List.foldl]
      norm_num [show '1'.toNat - 48 = 1 from rfl, show '0'.toNat - 48 = 0 from rfl]
    have h5 : int_val ['5'] = (5:ℚ) := by
      simp only [int_val, char_digit, List.foldl]
      norm_num [show '5'.toNat - 48 = 5 from rfl]
    rw [h0, h1, h5]
    have hcm : py_round2 ((100:ℚ) * (-(5:ℚ) / 100)) = -5 := by
      rw [py_round2_exact (-500) (by norm_num)]
      norm_num
    rw [hcm]
  · norm_num

theorem c9_witness :
    (Option.elim (normalize_row 2025 (fun _ => Option.none) c9_pos_row) True
      (fun f => 0 ≤ f.gp → 0 ≤ f.commission)) ∧
    0 ≤ (finalize_group
      { employee_name := "E", client := "C", employment_type := "Contract",
        month := "May", year := 2025, total_hours := 10, bill_sum := 500,
        pay_sum := 350 }).commission := by
  constructor
  · cases hn : normalize_row 2025 (fun _ => Option.none) c9_pos_row with
    | none => trivial
    | some f =>
      intro hg
      refine (c9_amended.1 2025 (fun _ => Option.none) c9_pos_row f hn ?_).1 hg
      rw [show (infer_commission_rate
          ((opt_str_of (first_match c9_pos_row STATUS_COLS)).getD "") f.gp
          (opt_str_of (first_match c9_pos_row RATE_COLS))).2 = (0.10:ℚ) from rfl]
      norm_num
  · exact (c9_amended.2.2.1
      { employee_name := "E", client := "C", employment_type := "Contract",
        month := "May", year := 2025, total_hours := 10, bill_sum := 500,
        pay_sum := 350 }).1 (by norm_num)

end CommissionPortal
